import Mathlib

/-!
Verification of the geo-depression (pockmark) detection and characterisation
pipeline.  The development shallowly embeds the two pipeline scripts:

* `AnalyseGeoDepressions.py` — per-polygon morphometric characterisation:
  azimuth, eccentricity, thinness ratio, diameter/depth ratio, shape
  classification, the update-cursor loop assigning `DEP_ID`, and the
  deepest-point locator built from zonal statistics and a `Con` selection.
* `IdentifyGeoDepressions.py` — depression extraction: the polygon size
  filter and the no-features failure path.

Real-valued Python floats are embedded as `ℝ`; a Python exception raised by
a primitive (`ZeroDivisionError` from `/`, `ValueError` from `math.sqrt` of
a negative number) is embedded by returning `none` in `Option`.  Engine
(arcpy) operations that the scripts call are modelled by their documented
behaviour: zonal MIN/MAX as list minimum/maximum, `DeleteIdentical` on a
key field as keep-first-per-key deduplication, `FeatureToPoint` and the
attribute spatial join as attribute-preserving maps.
-/

namespace GeoDepressions

open Real

/-- Embedding of `azimuth(coords)` from `AnalyseGeoDepressions.py` with
`coords = [x1, x2, y1, y2]`.  The source computes
`math.atan2(coords[1] - coords[0], coords[3] - coords[2])`, i.e.
`atan2(x2 - x1, y2 - y1)`, converts to degrees, and adds 180 if negative.
`atan2(y, x)` is embedded as `Complex.arg ⟨x, y⟩`. -/
noncomputable def azimuth (x1 x2 y1 y2 : ℝ) : ℝ :=
  let radians := Complex.arg ⟨y2 - y1, x2 - x1⟩
  let degrees := radians * 180 / Real.pi
  if degrees < 0 then degrees + 180 else degrees

/-- Embedding of `eccentricity(major_axis, minor_axis)`:
`math.sqrt(((major**2) - (minor**2)) / (major**2))`.  Python raises
`ZeroDivisionError` when the denominator is `0` and `ValueError` when the
radicand is negative; both failure modes are embedded as `none`. -/
noncomputable def eccentricity (major_axis minor_axis : ℝ) : Option ℝ :=
  if major_axis ^ 2 = 0 then none
  else if (major_axis ^ 2 - minor_axis ^ 2) / major_axis ^ 2 < 0 then none
  else some (Real.sqrt ((major_axis ^ 2 - minor_axis ^ 2) / major_axis ^ 2))

/-- Embedding of `thinness_ratio(area, perimeter)`:
`(4 * math.pi) * (area / (perimeter ** 2))`, with the
`ZeroDivisionError` at `perimeter == 0` embedded as `none`. -/
noncomputable def thinness_rat (area perimeter : ℝ) : Option ℝ :=
  if perimeter ^ 2 = 0 then none
  else some ((4 * Real.pi) * (area / perimeter ^ 2))

/-- Embedding of `diameter_depth_ratio(diameter, depth)`:
`abs(diameter / depth)`, with the `ZeroDivisionError` at `depth == 0`
embedded as `none`. -/
noncomputable def dia_depth_rat (diameter depth : ℝ) : Option ℝ :=
  if depth = 0 then none else some |diameter / depth|

/-- The exact string returned by `shape_descriptor` on its first branch. -/
def IRREGULAR : String :=
  "Irregular shape and/or low dia/dep ratio. Unlikely to be caused by fluid escape"

/-- The exact string returned by `shape_descriptor` on its second branch. -/
def SEMI_REGULAR : String :=
  "Semi-regular shape. Depression needs further investigation"

/-- The exact string returned by `shape_descriptor` on its third branch. -/
def REGULAR : String :=
  "Regular shape. Potentially a geo-feature caused by fluid escape"

/-- Embedding of `shape_descriptor(poly_thinness, poly_dd_ratio)`: the
first branch fires when `poly_thinness < 0.5 or poly_dd_ratio > 100`, the
second when additionally `poly_thinness < 0.75`, otherwise the third. -/
noncomputable def shape_descriptor (poly_thinness poly_dd : ℝ) : String :=
  if poly_thinness < 0.5 ∨ poly_dd > 100 then IRREGULAR
  else if poly_thinness < 0.75 then SEMI_REGULAR
  else REGULAR

/-- Embedding of the call `thinness_ratio(area, perimeter)` when both
arguments are Python 2 `int`s: under Python 2, `/` on two ints is floor
division, performed before the float multiplication by `4 * math.pi`.
Floor division on `ℤ` is `Int.fdiv`. -/
noncomputable def thinness_rat_int (area perimeter : ℤ) : Option ℝ :=
  if perimeter ^ 2 = 0 then none
  else some ((4 * Real.pi) * ((Int.fdiv area (perimeter ^ 2) : ℤ) : ℝ))

/-- Embedding of the call `diameter_depth_ratio(diameter, depth)` when both
arguments are Python 2 `int`s: `diameter / depth` is floor division and the
result of `abs` is again an `int`. -/
def dia_depth_rat_int (diameter depth : ℤ) : Option ℤ :=
  if depth = 0 then none else some |Int.fdiv diameter depth|

/-- Unfolding lemma for `azimuth` with the two `let` bindings expanded. -/
lemma azimuth_eq (x1 x2 y1 y2 : ℝ) :
    azimuth x1 x2 y1 y2 =
      if Complex.arg ⟨y2 - y1, x2 - x1⟩ * 180 / Real.pi < 0 then
        Complex.arg ⟨y2 - y1, x2 - x1⟩ * 180 / Real.pi + 180
      else Complex.arg ⟨y2 - y1, x2 - x1⟩ * 180 / Real.pi := rfl

/-- The degree value before folding is strictly above `-180`. -/
lemma azimuth_degrees_gt (x1 x2 y1 y2 : ℝ) :
    -180 < Complex.arg ⟨y2 - y1, x2 - x1⟩ * 180 / Real.pi := by
  have hπ : (0 : ℝ) < Real.pi := Real.pi_pos
  have h1 : -Real.pi < Complex.arg ⟨y2 - y1, x2 - x1⟩ := Complex.neg_pi_lt_arg _
  rw [lt_div_iff₀ hπ]
  nlinarith

/-- The degree value before folding is at most `180`. -/
lemma azimuth_degrees_le (x1 x2 y1 y2 : ℝ) :
    Complex.arg ⟨y2 - y1, x2 - x1⟩ * 180 / Real.pi ≤ 180 := by
  have hπ : (0 : ℝ) < Real.pi := Real.pi_pos
  have h1 : Complex.arg ⟨y2 - y1, x2 - x1⟩ ≤ Real.pi := Complex.arg_le_pi _
  rw [div_le_iff₀ hπ]
  nlinarith

/-- `azimuth` never returns a negative value. -/
lemma azimuth_nonneg (x1 x2 y1 y2 : ℝ) : 0 ≤ azimuth x1 x2 y1 y2 := by
  rw [azimuth_eq]
  split_ifs with h
  · have := azimuth_degrees_gt x1 x2 y1 y2
    linarith
  · linarith

/-- `azimuth` never exceeds `180`. -/
lemma azimuth_le_180 (x1 x2 y1 y2 : ℝ) : azimuth x1 x2 y1 y2 ≤ 180 := by
  rw [azimuth_eq]
  split_ifs with h
  · linarith
  · exact azimuth_degrees_le x1 x2 y1 y2

/-- A vertical major axis pointing towards increasing `y` gives azimuth `0`. -/
lemma azimuth_vertical_north (x y1 y2 : ℝ) (h : y1 < y2) :
    azimuth x x y1 y2 = 0 := by
  have harg : Complex.arg ⟨y2 - y1, x - x⟩ = 0 :=
    Complex.arg_eq_zero_iff.mpr ⟨by simp; linarith, by simp⟩
  rw [azimuth_eq, harg]
  norm_num

/-- A vertical major axis pointing towards decreasing `y` gives azimuth
`180`: `atan2(0, negative)` is `π`, which is not folded. -/
lemma azimuth_vertical_south (x y1 y2 : ℝ) (h : y2 < y1) :
    azimuth x x y1 y2 = 180 := by
  have harg : Complex.arg ⟨y2 - y1, x - x⟩ = Real.pi :=
    Complex.arg_eq_pi_iff.mpr ⟨by simp; linarith, by simp⟩
  have hπ : Real.pi ≠ 0 := ne_of_gt Real.pi_pos
  rw [azimuth_eq, harg]
  rw [mul_comm, mul_div_assoc, div_self hπ, mul_one]
  norm_num

/-- A horizontal major axis gives azimuth `90`, whichever way it points. -/
lemma azimuth_horizontal (x1 x2 y : ℝ) (h : x1 ≠ x2) :
    azimuth x1 x2 y y = 90 := by
  have hπ : (0 : ℝ) < Real.pi := Real.pi_pos
  rcases lt_or_gt_of_ne h with hlt | hgt
  · have harg : Complex.arg ⟨y - y, x2 - x1⟩ = Real.pi / 2 :=
      Complex.arg_eq_pi_div_two_iff.mpr ⟨by simp, by simp; linarith⟩
    rw [azimuth_eq, harg]
    have hd : Real.pi / 2 * 180 / Real.pi = 90 := by
      field_simp
      ring
    rw [hd]
    norm_num
  · have harg : Complex.arg ⟨y - y, x2 - x1⟩ = -(Real.pi / 2) :=
      Complex.arg_eq_neg_pi_div_two_iff.mpr ⟨by simp, by simp; linarith⟩
    rw [azimuth_eq, harg]
    have hd : -(Real.pi / 2) * 180 / Real.pi = -90 := by
      field_simp
      ring
    rw [hd]
    norm_num

/-- Evaluation of `azimuth` on the two concrete lines the spec names:
the vertical segment from `(0,0)` to `(0,1)` and the horizontal segment
from `(0,0)` to `(1,0)`. -/
lemma azimuth_concrete :
    azimuth 0 0 0 1 = 0 ∧ azimuth 0 1 0 0 = 90 :=
  ⟨azimuth_vertical_north 0 0 1 (by norm_num),
   azimuth_horizontal 0 1 0 (by norm_num)⟩

/-- Definition following the spec's words, for comparison with the source:
the spec states `azimuth` computes `atan2(y2 - y1, x2 - x1)` converted to
degrees, adding 180° when negative.  `atan2(y2 - y1, x2 - x1)` is
`Complex.arg ⟨x2 - x1, y2 - y1⟩`. -/
noncomputable def azimuth_specFormula (x1 x2 y1 y2 : ℝ) : ℝ :=
  let radians := Complex.arg ⟨x2 - x1, y2 - y1⟩
  let degrees := radians * 180 / Real.pi
  if degrees < 0 then degrees + 180 else degrees

/-- Claim C2, counterexample: on the vertical segment from `(0,0)` to
`(0,1)` the source `azimuth` returns `0`, not the `90` the claim requires
(the spec's own formula `atan2(y2 - y1, x2 - x1)` would give `90` there):
the source computes `atan2(x2 - x1, y2 - y1)`, a bearing from north, so the
roles of vertical and horizontal lines are exactly swapped. -/
theorem claim_C2_counterexample :
    azimuth 0 0 0 1 = 0 ∧ azimuth_specFormula 0 0 0 1 = 90 ∧ (0 : ℝ) ≠ 90 := by
  refine ⟨azimuth_concrete.1, ?_, by norm_num⟩
  have harg : Complex.arg ⟨(0 : ℝ) - 0, (1 : ℝ) - 0⟩ = Real.pi / 2 :=
    Complex.arg_eq_pi_div_two_iff.mpr ⟨by simp, by simp⟩
  show (if Complex.arg ⟨(0 : ℝ) - 0, (1 : ℝ) - 0⟩ * 180 / Real.pi < 0 then
      Complex.arg ⟨(0 : ℝ) - 0, (1 : ℝ) - 0⟩ * 180 / Real.pi + 180
    else Complex.arg ⟨(0 : ℝ) - 0, (1 : ℝ) - 0⟩ * 180 / Real.pi) = 90
  rw [harg]
  have hπ : Real.pi ≠ 0 := ne_of_gt Real.pi_pos
  have hd : Real.pi / 2 * 180 / Real.pi = 90 := by
    field_simp
    ring
  rw [hd]
  norm_num

/-- Claim C2, amended: `azimuth` computes `atan2(x2 - x1, y2 - y1)` (a
bearing from north) converted to degrees, adding 180° when negative, so the
result always lies in the closed interval [0°, 180°]; a vertical line gives
`0°` (pointing north) or `180°` (pointing south), and a horizontal line
gives `90°`. -/
theorem claim_C2_amended (x1 x2 y1 y2 : ℝ) :
    (0 ≤ azimuth x1 x2 y1 y2 ∧ azimuth x1 x2 y1 y2 ≤ 180)
    ∧ (x1 = x2 → y1 < y2 → azimuth x1 x2 y1 y2 = 0)
    ∧ (x1 = x2 → y2 < y1 → azimuth x1 x2 y1 y2 = 180)
    ∧ (y1 = y2 → x1 ≠ x2 → azimuth x1 x2 y1 y2 = 90) := by
  refine ⟨⟨azimuth_nonneg .., azimuth_le_180 ..⟩, ?_, ?_, ?_⟩
  · rintro rfl h
    exact azimuth_vertical_north x1 y1 y2 h
  · rintro rfl h
    exact azimuth_vertical_south x1 y1 y2 h
  · rintro rfl h
    exact azimuth_horizontal x1 x2 y1 h

/-- Witness for the amended claim C2 at concrete inputs. -/
theorem claim_C2_amended_witness :
    azimuth 3 3 0 2 = 0 ∧ azimuth 3 3 2 0 = 180 ∧ azimuth 0 1 5 5 = 90 :=
  ⟨(claim_C2_amended 3 3 0 2).2.1 rfl (by norm_num),
   (claim_C2_amended 3 3 2 0).2.2.1 rfl (by norm_num),
   (claim_C2_amended 0 1 5 5).2.2.2 rfl (by norm_num)⟩

/-- Claim C10: with `x2 = x1` and `y2 < y1` (a due-south major axis) the
source `azimuth` returns exactly `180`, since `atan2(0, negative) = π` is
not negative and is not folded; together with the range bounds, the
guaranteed output range of the code is the closed interval [0°, 180°]. -/
theorem claim_C10_azimuth_attains_180 (x1 x2 y1 y2 : ℝ) :
    (y2 < y1 → azimuth x1 x1 y1 y2 = 180)
    ∧ 0 ≤ azimuth x1 x2 y1 y2 ∧ azimuth x1 x2 y1 y2 ≤ 180 :=
  ⟨fun h => azimuth_vertical_south x1 y1 y2 h,
   azimuth_nonneg .., azimuth_le_180 ..⟩

/-- Witness for claim C10 at a concrete due-south input. -/
theorem claim_C10_witness :
    azimuth 7 7 1 0 = 180 ∧ 0 ≤ azimuth 7 7 1 0 ∧ azimuth 7 7 1 0 ≤ 180 := by
  have h := claim_C10_azimuth_attains_180 7 7 1 0
  exact ⟨h.1 (by norm_num), h.2⟩

/-- Claim C7: for `major ≥ minor > 0`, `eccentricity` succeeds with value
`sqrt((major² − minor²) / major²)`, which lies in `[0, 1)` and is `0`
exactly when `major = minor`; at `major = 0` the computation fails
(`ZeroDivisionError` in the source, `none` in the embedding). -/
theorem claim_C7_eccentricity (major minor : ℝ) (h1 : minor ≤ major)
    (h2 : 0 < minor) :
    eccentricity major minor
      = some (Real.sqrt ((major ^ 2 - minor ^ 2) / major ^ 2))
    ∧ 0 ≤ Real.sqrt ((major ^ 2 - minor ^ 2) / major ^ 2)
    ∧ Real.sqrt ((major ^ 2 - minor ^ 2) / major ^ 2) < 1
    ∧ (Real.sqrt ((major ^ 2 - minor ^ 2) / major ^ 2) = 0 ↔ major = minor)
    ∧ eccentricity 0 minor = none := by
  have hmaj : 0 < major := lt_of_lt_of_le h2 h1
  have hm2 : (0 : ℝ) < major ^ 2 := pow_pos hmaj 2
  have hm2' : major ^ 2 ≠ 0 := ne_of_gt hm2
  have hle : minor ^ 2 ≤ major ^ 2 := pow_le_pow_left₀ h2.le h1 2
  have hq0 : 0 ≤ (major ^ 2 - minor ^ 2) / major ^ 2 :=
    div_nonneg (sub_nonneg.mpr hle) hm2.le
  refine ⟨?_, Real.sqrt_nonneg _, ?_, ?_, ?_⟩
  · simp [eccentricity, hm2', not_lt.mpr hq0]
  · have hq1 : (major ^ 2 - minor ^ 2) / major ^ 2 < 1 := by
      rw [div_lt_one hm2]
      nlinarith [pow_pos h2 2]
    calc Real.sqrt ((major ^ 2 - minor ^ 2) / major ^ 2)
        < Real.sqrt 1 := by
          exact (Real.sqrt_lt_sqrt hq0 (by simpa using hq1))
      _ = 1 := Real.sqrt_one
  · rw [Real.sqrt_eq_zero hq0, div_eq_zero_iff]
    constructor
    · rintro (h | h)
      · have hsq : major ^ 2 = minor ^ 2 := by linarith
        rcases lt_trichotomy major minor with hlt | heq | hgt
        · exact absurd hsq (ne_of_lt (pow_lt_pow_left₀ hlt hmaj.le two_ne_zero))
        · exact heq
        · exact absurd hsq.symm
            (ne_of_lt (pow_lt_pow_left₀ hgt h2.le two_ne_zero))
      · exact absurd h hm2'
    · intro h
      left
      rw [h]
      ring
  · simp [eccentricity]

/-- Witness for claim C7 at the concrete axes `major = 2`, `minor = 1`. -/
theorem claim_C7_witness :
    eccentricity 2 1 = some (Real.sqrt (((2 : ℝ) ^ 2 - 1 ^ 2) / 2 ^ 2))
    ∧ 0 ≤ Real.sqrt (((2 : ℝ) ^ 2 - 1 ^ 2) / 2 ^ 2)
    ∧ Real.sqrt (((2 : ℝ) ^ 2 - 1 ^ 2) / 2 ^ 2) < 1
    ∧ (Real.sqrt (((2 : ℝ) ^ 2 - 1 ^ 2) / 2 ^ 2) = 0 ↔ (2 : ℝ) = 1)
    ∧ eccentricity 0 1 = none :=
  claim_C7_eccentricity 2 1 (by norm_num) (by norm_num)

/-- Claim C8: on the measurements of a perfect circle of radius `r > 0`
(area `π r²`, perimeter `2 π r`), the thinness ratio is exactly `1`. -/
theorem claim_C8_thinness_circle (r : ℝ) (hr : 0 < r) :
    thinness_rat (Real.pi * r ^ 2) (2 * Real.pi * r) = some 1 := by
  have hπ : (0 : ℝ) < Real.pi := Real.pi_pos
  have hπ' : Real.pi ≠ 0 := ne_of_gt hπ
  have hr' : r ≠ 0 := ne_of_gt hr
  have hp : (2 * Real.pi * r) ^ 2 ≠ 0 := by positivity
  rw [thinness_rat, if_neg hp]
  congr 1
  field_simp
  ring

/-- Witness for claim C8 at radius `r = 1`. -/
theorem claim_C8_witness :
    thinness_rat (Real.pi * 1 ^ 2) (2 * Real.pi * 1) = some 1 :=
  claim_C8_thinness_circle 1 one_pos

/-- Claim C9: with two Python 2 `int` arguments the division inside
`thinness_ratio` is integer floor division, so whenever
`0 ≤ area < perimeter²` the function returns exactly `0.0` instead of the
spec's real-valued formula. -/
theorem claim_C9_int_floor_division (area perimeter : ℤ) (h0 : 0 ≤ area)
    (h1 : 0 < perimeter) (h2 : area < perimeter ^ 2) :
    thinness_rat_int area perimeter = some 0 := by
  have hp2 : (0 : ℤ) < perimeter ^ 2 := pow_pos h1 2
  have hfd : Int.fdiv area (perimeter ^ 2) = 0 := by
    rw [Int.fdiv_eq_ediv _ hp2.le]
    exact Int.ediv_eq_zero_of_lt h0 h2
  simp [thinness_rat_int, ne_of_gt hp2, hfd]

/-- Witness for claim C9: `thinness_ratio(3, 2)` with ints returns `0.0`
although the real-valued formula would give `3π/4 ≈ 2.36`. -/
theorem claim_C9_witness : thinness_rat_int 3 2 = some 0 :=
  claim_C9_int_floor_division 3 2 (by norm_num) (by norm_num) (by norm_num)

/-- Claim C3: `shape_descriptor` is a pure function of
`(thinness, dd_ratio)` with fixed thresholds; the IRREGULAR condition
`thinness < 0.5 ∨ dd_ratio > 100` is checked first and short-circuits, then
`thinness < 0.75` gives SEMI_REGULAR, otherwise REGULAR; in particular
`(0.9, 150)` is IRREGULAR, `(0.6, 50)` is SEMI_REGULAR and `(0.9, 10)` is
REGULAR. -/
theorem claim_C3_shape_descriptor (t d : ℝ) :
    (t < 0.5 ∨ d > 100 → shape_descriptor t d = IRREGULAR)
    ∧ (¬(t < 0.5 ∨ d > 100) → t < 0.75 → shape_descriptor t d = SEMI_REGULAR)
    ∧ (¬(t < 0.5 ∨ d > 100) → ¬(t < 0.75) → shape_descriptor t d = REGULAR)
    ∧ shape_descriptor 0.9 150 = IRREGULAR
    ∧ shape_descriptor 0.6 50 = SEMI_REGULAR
    ∧ shape_descriptor 0.9 10 = REGULAR := by
  refine ⟨?_, ?_, ?_, ?_, ?_, ?_⟩
  · intro h
    rw [shape_descriptor, if_pos h]
  · intro h h'
    rw [shape_descriptor, if_neg h, if_pos h']
  · intro h h'
    rw [shape_descriptor, if_neg h, if_neg h']
  · rw [shape_descriptor, if_pos (by norm_num)]
  · rw [shape_descriptor, if_neg (by norm_num), if_pos (by norm_num)]
  · rw [shape_descriptor, if_neg (by norm_num), if_neg (by norm_num)]

/-- Witness for claim C3: the conditional clauses applied at concrete
threshold-exercising inputs, including the short-circuit case where a
highly circular thinness is overridden by a large diameter/depth ratio. -/
theorem claim_C3_witness :
    shape_descriptor 0.4 7 = IRREGULAR
    ∧ shape_descriptor 0.55 50 = SEMI_REGULAR
    ∧ shape_descriptor 0.8 9 = REGULAR :=
  ⟨(claim_C3_shape_descriptor 0.4 7).1 (Or.inl (by norm_num)),
   (claim_C3_shape_descriptor 0.55 50).2.1 (by norm_num) (by norm_num),
   (claim_C3_shape_descriptor 0.8 9).2.2.1 (by norm_num) (by norm_num)⟩

/-- Embedding of `math.hypot(x, y)`: the Euclidean distance `√(x² + y²)`. -/
noncomputable def hypot (x y : ℝ) : ℝ := Real.sqrt (x ^ 2 + y ^ 2)

/-- One input row of the update cursor in `AnalyseGeoDepressions.py`: the
polygon's geometry summary (`SHAPE@.area`, `SHAPE@.length`, the four
`hullRectangle` corner coordinates) and the depth field `POCK_DEP` joined
onto it by the extraction run. -/
structure PolygonRow where
  area : ℝ
  length : ℝ
  x1 : ℝ
  y1 : ℝ
  x2 : ℝ
  y2 : ℝ
  x3 : ℝ
  y3 : ℝ
  x4 : ℝ
  y4 : ℝ
  pock_dep : ℝ

/-- One characterised output row: the fields written back by the update
cursor (`DEP_ID`, `AREA_M`, `PERIMETER`, `MAJ_AXIS`, `MIN_AXIS`, `ECC`,
`AZIMUTH`, `THIN_RAT`, `MORP_CHAR`, `DIDP_RAT`) plus the depth carried in. -/
structure CharRow where
  dep_id : ℤ
  area_m : ℝ
  perimeter : ℝ
  maj_axis : ℝ
  min_axis : ℝ
  ecc : ℝ
  az : ℝ
  thin_rat : ℝ
  morp_char : String
  didp_rat : ℝ
  pock_dep : ℝ

/-- Embedding of one iteration of the update-cursor loop: computes the two
adjacent hull-rectangle edge lengths, picks minor/major axis and the
azimuth reference edge, then eccentricity, azimuth, thinness ratio, average
diameter, diameter/depth ratio and the morphological descriptor.  Any
exception raised by a primitive (`none` in the embedding) aborts the
iteration. -/
noncomputable def characterize_row (r : PolygonRow) (dep_id : ℤ) :
    Option CharRow :=
  let distance1 := hypot (r.x1 - r.x2) (r.y1 - r.y2)
  let distance2 := hypot (r.x2 - r.x3) (r.y2 - r.y3)
  let min_axis := if distance1 ≤ distance2 then distance1 else distance2
  let maj_axis := if distance1 ≤ distance2 then distance2 else distance1
  let az := if distance1 ≤ distance2 then azimuth r.x2 r.x3 r.y2 r.y3
            else azimuth r.x1 r.x2 r.y1 r.y2
  do
    let e ← eccentricity maj_axis min_axis
    let t ← thinness_rat r.area r.length
    let average_diameter := (maj_axis + min_axis) / 2
    let dd ← dia_depth_rat average_diameter r.pock_dep
    some { dep_id := dep_id, area_m := r.area, perimeter := r.length,
           maj_axis := maj_axis, min_axis := min_axis, ecc := e, az := az,
           thin_rat := t, morp_char := shape_descriptor t dd,
           didp_rat := dd, pock_dep := r.pock_dep }

/-- Embedding of the whole update-cursor loop starting from a given
`DEP_ID` counter value: rows are processed in order, the counter is
incremented after each row, and an exception in any row propagates, so the
whole loop (and with it the run, whose outputs are only written after the
loop) produces nothing. -/
noncomputable def characterize_go (dep_id : ℤ) :
    List PolygonRow → Option (List CharRow)
  | [] => some []
  | r :: rs => do
      let c ← characterize_row r dep_id
      let cs ← characterize_go (dep_id + 1) rs
      some (c :: cs)

/-- The update-cursor loop as run by the script: `dep_id` starts at `1`. -/
noncomputable def characterize_all (rows : List PolygonRow) :
    Option (List CharRow) :=
  characterize_go 1 rows

/-- Binding any `Option` into a constant `none` continuation gives `none`. -/
lemma option_bind_const_none {α β : Type} (x : Option α) :
    (x.bind fun _ => (none : Option β)) = none := by
  cases x <;> rfl

/-- A row whose joined depth is `0` makes its cursor iteration fail: the
division `diameter / depth` raises `ZeroDivisionError`. -/
lemma characterize_row_none_of_depth_zero (r : PolygonRow) (i : ℤ)
    (h : r.pock_dep = 0) : characterize_row r i = none := by
  rw [characterize_row]
  simp only [bind, Option.bind_eq_none]
  intro a ha b hb
  rw [dia_depth_rat, if_pos h]
  simp

/-- If any row of the loop has depth `0`, the whole loop yields nothing. -/
lemma characterize_go_none_of_depth_zero :
    ∀ (rows : List PolygonRow) (i : ℤ) (r : PolygonRow), r ∈ rows →
      r.pock_dep = 0 → characterize_go i rows = none := by
  intro rows
  induction rows with
  | nil => intro i r hr; exact absurd hr (List.not_mem_nil r)
  | cons a as ih =>
    intro i r hr h0
    rcases List.mem_cons.mp hr with rfl | htail
    · rw [characterize_go]
      simp [characterize_row_none_of_depth_zero r i h0]
    · rw [characterize_go]
      rcases hc : characterize_row a i with _ | c
      · simp
      · simp only [bind, Option.some_bind, hc]
        rw [ih (i + 1) r htail h0]
        simp

/-- A cursor iteration succeeds whenever the perimeter is non-zero, the
joined depth is non-zero, and both hull-rectangle edges have positive
length: the major axis is then positive and the eccentricity radicand
non-negative, so no primitive raises. -/
lemma characterize_row_isSome (r : PolygonRow) (i : ℤ)
    (hperim : r.length ≠ 0) (hdep : r.pock_dep ≠ 0)
    (hd1 : 0 < hypot (r.x1 - r.x2) (r.y1 - r.y2))
    (hd2 : 0 < hypot (r.x2 - r.x3) (r.y2 - r.y3)) :
    (characterize_row r i).isSome := by
  simp only [characterize_row]
  set d1 := hypot (r.x1 - r.x2) (r.y1 - r.y2) with hd1def
  set d2 := hypot (r.x2 - r.x3) (r.y2 - r.y3) with hd2def
  have hminpos : 0 < (if d1 ≤ d2 then d1 else d2) := by
    split_ifs <;> assumption
  have hmajpos : 0 < (if d1 ≤ d2 then d2 else d1) := by
    split_ifs <;> assumption
  have hminle : (if d1 ≤ d2 then d1 else d2) ≤ (if d1 ≤ d2 then d2 else d1) := by
    split_ifs with h
    · exact h
    · exact le_of_not_le h
  have hmaj2 : (if d1 ≤ d2 then d2 else d1) ^ 2 ≠ 0 :=
    pow_ne_zero 2 (ne_of_gt hmajpos)
  have hq : 0 ≤ ((if d1 ≤ d2 then d2 else d1) ^ 2
      - (if d1 ≤ d2 then d1 else d2) ^ 2) / (if d1 ≤ d2 then d2 else d1) ^ 2 :=
    div_nonneg (sub_nonneg.mpr (pow_le_pow_left₀ hminpos.le hminle 2))
      (sq_nonneg _)
  have he : eccentricity (if d1 ≤ d2 then d2 else d1)
      (if d1 ≤ d2 then d1 else d2)
      = some (Real.sqrt (((if d1 ≤ d2 then d2 else d1) ^ 2
          - (if d1 ≤ d2 then d1 else d2) ^ 2)
          / (if d1 ≤ d2 then d2 else d1) ^ 2)) := by
    rw [eccentricity, if_neg hmaj2, if_neg (not_lt.mpr hq)]
  have ht : thinness_rat r.area r.length
      = some ((4 * Real.pi) * (r.area / r.length ^ 2)) := by
    rw [thinness_rat, if_neg (pow_ne_zero 2 hperim)]
  have hdd : dia_depth_rat
      (((if d1 ≤ d2 then d2 else d1) + (if d1 ≤ d2 then d1 else d2)) / 2)
      r.pock_dep
      = some |(((if d1 ≤ d2 then d2 else d1) + (if d1 ≤ d2 then d1 else d2)) / 2)
          / r.pock_dep| := by
    rw [dia_depth_rat, if_neg hdep]
  simp only [bind, he, ht, hdd, Option.some_bind, Option.isSome_some]

/-- A concrete well-behaved polygon row: a 1 × 2 axis-aligned hull
rectangle with corners `(0,0) (0,2) (1,2) (1,0)`, area `2`, perimeter `6`,
and joined depth `-5`. -/
def goodRow : PolygonRow :=
  { area := 2, length := 6, x1 := 0, y1 := 0, x2 := 0, y2 := 2,
    x3 := 1, y3 := 2, x4 := 1, y4 := 0, pock_dep := -5 }

/-- The same polygon geometry but with the joined depth equal to `0`. -/
def badRow : PolygonRow := { goodRow with pock_dep := 0 }

/-- The concrete good row is characterised successfully. -/
lemma goodRow_char_isSome : (characterize_row goodRow 1).isSome := by
  apply characterize_row_isSome
  · norm_num [goodRow]
  · norm_num [goodRow]
  · rw [hypot]
    apply Real.sqrt_pos.mpr
    norm_num [goodRow]
  · rw [hypot]
    apply Real.sqrt_pos.mpr
    norm_num [goodRow]

/-- Claim C1, counterexample: a run over two polygons, one of which has
depth `0`, produces no characterised output at all — `characterize_all`
yields `none` — even though the other polygon on its own would be
characterised successfully.  The source has no `DegenerateGeometry`
per-polygon handler: the `ZeroDivisionError` from
`diameter_depth_ratio(average_diameter, 0)` propagates out of the cursor
loop to the script-level `except:` handler, aborting the whole run before
any output is written. -/
theorem claim_C1_counterexample :
    characterize_all [goodRow, badRow] = none
    ∧ (characterize_row goodRow 1).isSome
    ∧ badRow.pock_dep = 0 :=
  ⟨characterize_go_none_of_depth_zero [goodRow, badRow] 1 badRow
      (by simp) rfl,
   goodRow_char_isSome, rfl⟩

/-- Claim C1, amended: if the depth value joined onto any polygon of a run
is `0`, the cursor loop raises `ZeroDivisionError` (not a per-polygon
`DegenerateGeometry`) and the whole characterisation run aborts with no
characterised output; no polygon of the run — degenerate or not — is
emitted. -/
theorem claim_C1_amended (rows : List PolygonRow) (r : PolygonRow)
    (hmem : r ∈ rows) (h0 : r.pock_dep = 0) :
    characterize_all rows = none :=
  characterize_go_none_of_depth_zero rows 1 r hmem h0

/-- Witness for the amended claim C1 on a concrete two-polygon run. -/
theorem claim_C1_amended_witness :
    characterize_all [badRow, goodRow] = none :=
  claim_C1_amended [badRow, goodRow] badRow (by simp) rfl

/-- Modelled engine operation `ZonalStatistics(..., "MAXIMUM")` on one
zone: the maximum of the bathymetry cells inside the zone. -/
noncomputable def zonalMax : List ℝ → ℝ
  | [] => 0
  | c :: cs => cs.foldl max c

/-- Modelled engine operation `ZonalStatistics(..., "MINIMUM")` on one
zone: the minimum of the bathymetry cells inside the zone. -/
noncomputable def zonalMin : List ℝ → ℝ
  | [] => 0
  | c :: cs => cs.foldl min c

/-- The `Con` selection condition of the source, applied to one cell:
`abs((abs(zonal_max - cell)) - (abs(zonal_max - zonal_min))) < 0.001`. -/
def conSelect (zmax zmin cell : ℝ) : Prop :=
  |(|zmax - cell|) - (|zmax - zmin|)| < 0.001

/-- The selection formula exactly as the spec words it, for comparison
with the source: `|zonal_max − cell| − |zonal_max − zonal_min| < 1e-3`,
with no outer absolute value. -/
def specSelect (zmax zmin cell : ℝ) : Prop :=
  |zmax - cell| - |zmax - zmin| < 0.001

/-- A located deepest point: `RasterToPoint` gives it the `Con` output
value `abs(zonal_max - zonal_min)` as its grid code, and
`ExtractMultiValuesToPoints` then attaches the raw bathymetry sample at
the cell as its `DEPTH` field. -/
structure DeepPoint where
  grid_code : ℝ
  depth : ℝ

/-- The point produced for a selected cell. -/
noncomputable def mkDeepPoint (zmax zmin cell : ℝ) : DeepPoint :=
  { grid_code := |zmax - zmin|, depth := cell }

/-- The accumulator of a `max`-fold is a lower bound of the result. -/
lemma le_foldl_max : ∀ (l : List ℝ) (a : ℝ), a ≤ l.foldl max a := by
  intro l
  induction l with
  | nil => intro a; simp
  | cons b l ih =>
    intro a
    calc a ≤ max a b := le_max_left a b
      _ ≤ (b :: l).foldl max a := by
        rw [List.foldl_cons]
        exact ih (max a b)

/-- Every list member is bounded by a `max`-fold over the list. -/
lemma mem_le_foldl_max : ∀ (l : List ℝ) (a c : ℝ), c ∈ l → c ≤ l.foldl max a := by
  intro l
  induction l with
  | nil => intro a c hc; exact absurd hc (List.not_mem_nil c)
  | cons b l ih =>
    intro a c hc
    rw [List.foldl_cons]
    rcases List.mem_cons.mp hc with rfl | hc'
    · calc c ≤ max a c := le_max_right a c
        _ ≤ l.foldl max (max a c) := le_foldl_max l (max a c)
    · exact ih (max a b) c hc'

/-- The accumulator of a `min`-fold is an upper bound of the result. -/
lemma foldl_min_le : ∀ (l : List ℝ) (a : ℝ), l.foldl min a ≤ a := by
  intro l
  induction l with
  | nil => intro a; simp
  | cons b l ih =>
    intro a
    calc (b :: l).foldl min a = l.foldl min (min a b) := List.foldl_cons ..
      _ ≤ min a b := ih (min a b)
      _ ≤ a := min_le_left a b

/-- A `min`-fold over a list is at most every list member. -/
lemma foldl_min_le_mem : ∀ (l : List ℝ) (a c : ℝ), c ∈ l → l.foldl min a ≤ c := by
  intro l
  induction l with
  | nil => intro a c hc; exact absurd hc (List.not_mem_nil c)
  | cons b l ih =>
    intro a c hc
    rw [List.foldl_cons]
    rcases List.mem_cons.mp hc with rfl | hc'
    · calc l.foldl min (min a c) ≤ min a c := foldl_min_le l (min a c)
        _ ≤ c := min_le_right a c
    · exact ih (min a b) c hc'

/-- Every cell of a zone is at most the zonal maximum. -/
lemma le_zonalMax (cells : List ℝ) (c : ℝ) (hc : c ∈ cells) :
    c ≤ zonalMax cells := by
  cases cells with
  | nil => exact absurd hc (List.not_mem_nil c)
  | cons a l =>
    rw [zonalMax]
    rcases List.mem_cons.mp hc with rfl | hc'
    · exact le_foldl_max l c
    · exact mem_le_foldl_max l a c hc'

/-- Every cell of a zone is at least the zonal minimum. -/
lemma zonalMin_le (cells : List ℝ) (c : ℝ) (hc : c ∈ cells) :
    zonalMin cells ≤ c := by
  cases cells with
  | nil => exact absurd hc (List.not_mem_nil c)
  | cons a l =>
    rw [zonalMin]
    rcases List.mem_cons.mp hc with rfl | hc'
    · exact foldl_min_le l c
    · exact foldl_min_le_mem l a c hc'

/-- Claim C4, counterexample: in the two-cell zone `{-1, -10}` the cell at
the zonal maximum `-1` satisfies the claim's selection formula (its
left-hand side is `0 - 9 = -9 < 1e-3`) yet the source `Con` condition,
which wraps the difference in a further `abs`, rejects it (`9 < 1e-3`
fails): the claim's formula, read literally, selects every cell of the
zone, not only the cells near the zonal minimum. -/
theorem claim_C4_counterexample :
    specSelect (zonalMax [(-1 : ℝ), -10]) (zonalMin [(-1 : ℝ), -10]) (-1)
    ∧ ¬ conSelect (zonalMax [(-1 : ℝ), -10]) (zonalMin [(-1 : ℝ), -10]) (-1) := by
  have hmax : zonalMax [(-1 : ℝ), -10] = -1 := by
    rw [zonalMax]
    simp only [List.foldl_cons, List.foldl_nil]
    rw [max_eq_left (by norm_num)]
  have hmin : zonalMin [(-1 : ℝ), -10] = -10 := by
    rw [zonalMin]
    simp only [List.foldl_cons, List.foldl_nil]
    rw [min_eq_right (by norm_num)]
  have e1 : |(-1 : ℝ) - -1| = 0 := by norm_num
  have e2 : |(-1 : ℝ) - -10| = 9 := by
    rw [abs_of_nonneg (by norm_num)]
    norm_num
  constructor
  · rw [specSelect, hmax, hmin, e1, e2]
    norm_num
  · rw [conSelect, hmax, hmin, e1, e2]
    rw [abs_of_nonpos (by norm_num)]
    norm_num

/-- Claim C4, amended: for every cell of a zone, the source `Con`
condition `abs((abs(zonal_max − cell)) − (abs(zonal_max − zonal_min))) <
1e-3` — note the outer absolute value, absent from the claim's formula —
holds exactly when the cell is within `1e-3` of the zonal minimum, and the
located point carries the raw sampled elevation of the cell in its `DEPTH`
field, not the fill-difference or `Con` output value. -/
theorem claim_C4_amended (cells : List ℝ) (c : ℝ) (hc : c ∈ cells) :
    (conSelect (zonalMax cells) (zonalMin cells) c
      ↔ c - zonalMin cells < 0.001)
    ∧ (mkDeepPoint (zonalMax cells) (zonalMin cells) c).depth = c := by
  have hcmax : c ≤ zonalMax cells := le_zonalMax cells c hc
  have hcmin : zonalMin cells ≤ c := zonalMin_le cells c hc
  constructor
  · rw [conSelect]
    rw [abs_of_nonneg (by linarith : (0 : ℝ) ≤ zonalMax cells - c)]
    rw [abs_of_nonneg (by linarith : (0 : ℝ) ≤ zonalMax cells - zonalMin cells)]
    have h3 : zonalMax cells - c - (zonalMax cells - zonalMin cells)
        = -(c - zonalMin cells) := by ring
    rw [h3, abs_neg, abs_of_nonneg (by linarith)]
  · rfl

/-- Witness for the amended claim C4: in the zone `{-1, -10}` the cell at
the zonal minimum is selected by the source condition. -/
theorem claim_C4_amended_witness :
    (conSelect (zonalMax [(-1 : ℝ), -10]) (zonalMin [(-1 : ℝ), -10]) (-10)
      ↔ (-10 : ℝ) - zonalMin [(-1 : ℝ), -10] < 0.001)
    ∧ (mkDeepPoint (zonalMax [(-1 : ℝ), -10]) (zonalMin [(-1 : ℝ), -10])
        (-10)).depth = -10 :=
  claim_C4_amended [(-1 : ℝ), -10] (-10) (by simp)

/-- The dense identifier sequence `s, s+1, ..., s+n-1` that the cursor
counter produces over `n` rows. -/
def idList : ℕ → ℤ → List ℤ
  | 0, _ => []
  | n + 1, s => s :: idList n (s + 1)

/-- A successful cursor iteration writes the current counter value into
the row's `DEP_ID` field. -/
lemma characterize_row_dep_id (r : PolygonRow) (i : ℤ) (c : CharRow)
    (h : characterize_row r i = some c) : c.dep_id = i := by
  simp only [characterize_row, bind, Option.bind_eq_some] at h
  obtain ⟨e, he, t, ht, dd, hdd, hc⟩ := h
  rw [Option.some_inj] at hc
  rw [← hc]

/-- A successful run of the cursor loop stamps the rows, in iteration
order, with the dense identifier sequence starting at the initial counter
value. -/
lemma characterize_go_dep_ids :
    ∀ (rows : List PolygonRow) (i : ℤ) (out : List CharRow),
      characterize_go i rows = some out →
      out.map CharRow.dep_id = idList rows.length i := by
  intro rows
  induction rows with
  | nil =>
    intro i out h
    rw [characterize_go, Option.some_inj] at h
    rw [← h]
    rfl
  | cons a as ih =>
    intro i out h
    simp only [characterize_go, bind, Option.bind_eq_some] at h
    obtain ⟨c, hc, cs, hcs, hout⟩ := h
    rw [Option.some_inj] at hout
    rw [← hout, List.length_cons, idList, List.map_cons,
      characterize_row_dep_id a i c hc, ih (i + 1) cs hcs]

/-- Modelled engine operation `DeleteIdentical(features, [key])`, recursed
with the set of key values already seen: a feature whose key was already
encountered is dropped, otherwise it is kept and its key recorded. -/
def deleteIdenticalGo {α : Type} (key : α → ℤ) : List α → List ℤ → List α
  | [], _ => []
  | x :: xs, seen =>
      if key x ∈ seen then deleteIdenticalGo key xs seen
      else x :: deleteIdenticalGo key xs (key x :: seen)

/-- `DeleteIdentical` on a key field keeps, for each key value, only the
first feature encountered. -/
def deleteIdentical {α : Type} (key : α → ℤ) (l : List α) : List α :=
  deleteIdenticalGo key l []

/-- Every survivor of the deduplication has a key outside the seen set. -/
lemma deleteIdenticalGo_not_seen {α : Type} (key : α → ℤ) :
    ∀ (l : List α) (seen : List ℤ) (y : α),
      y ∈ deleteIdenticalGo key l seen → key y ∉ seen := by
  intro l
  induction l with
  | nil => intro seen y hy; exact absurd hy (List.not_mem_nil y)
  | cons x xs ih =>
    intro seen y hy
    rw [deleteIdenticalGo] at hy
    by_cases hx : key x ∈ seen
    · rw [if_pos hx] at hy
      exact ih seen y hy
    · rw [if_neg hx] at hy
      rcases List.mem_cons.mp hy with rfl | hy'
      · exact hx
      · intro hseen
        exact ih (key x :: seen) y hy' (List.mem_cons_of_mem _ hseen)

/-- The key values surviving the deduplication are pairwise distinct. -/
lemma deleteIdenticalGo_keys_nodup {α : Type} (key : α → ℤ) :
    ∀ (l : List α) (seen : List ℤ),
      ((deleteIdenticalGo key l seen).map key).Nodup := by
  intro l
  induction l with
  | nil => intro seen; simp [deleteIdenticalGo]
  | cons x xs ih =>
    intro seen
    rw [deleteIdenticalGo]
    by_cases hx : key x ∈ seen
    · rw [if_pos hx]
      exact ih seen
    · rw [if_neg hx, List.map_cons, List.nodup_cons]
      refine ⟨?_, ih (key x :: seen)⟩
      intro hmem
      obtain ⟨y, hy, hky⟩ := List.mem_map.mp hmem
      exact deleteIdenticalGo_not_seen key xs (key x :: seen) y hy
        (hky ▸ List.mem_cons_self _ _)

/-- Searching the deduplicated list for a key not in the seen set finds
exactly the feature that a search of the original list finds: the first
feature with that key is the one kept. -/
lemma deleteIdenticalGo_find? {α : Type} (key : α → ℤ) (k : ℤ) :
    ∀ (l : List α) (seen : List ℤ), k ∉ seen →
      (deleteIdenticalGo key l seen).find? (fun z => decide (key z = k))
        = l.find? (fun z => decide (key z = k)) := by
  intro l
  induction l with
  | nil => intro seen _; rfl
  | cons x xs ih =>
    intro seen hk
    rw [deleteIdenticalGo]
    by_cases hx : key x ∈ seen
    · rw [if_pos hx]
      have hne : ¬ (key x = k) := fun h => hk (h ▸ hx)
      rw [List.find?_cons_of_neg _ (by simpa using hne)]
      exact ih seen hk
    · rw [if_neg hx]
      by_cases hxk : key x = k
      · rw [List.find?_cons_of_pos _ (by simpa using hxk),
          List.find?_cons_of_pos _ (by simpa using hxk)]
      · rw [List.find?_cons_of_neg _ (by simpa using hxk),
          List.find?_cons_of_neg _ (by simpa using hxk)]
        refine ih (key x :: seen) ?_
        intro hmem
        rcases List.mem_cons.mp hmem with h | h
        · exact hxk h.symm
        · exact hk h

/-- Modelled engine operation `FeatureToPoint(polygons, "INSIDE")`: the
centroid-like point inherits the polygon's attribute row unchanged. -/
def featureToPoint (p : CharRow) : CharRow := p

/-- Modelled engine operation `SpatialJoin` with the field mappings of the
script: a deepest point falling in a polygon is paired with that polygon's
attribute row (`DEP_ID` included). -/
def spatialJoinPoint (pt : DeepPoint) (poly : CharRow) : DeepPoint × CharRow :=
  (pt, poly)

/-- Claim C5: over a successful characterisation run the output `DEP_ID`s
are the dense sequence `1, 2, ...` in iteration order; `DeleteIdentical`
on `DEP_ID` leaves at most one deepest point per identifier, keeping the
first encountered (searches for any identifier are unchanged by the
deduplication); and the spatial join and `FeatureToPoint` hand a polygon's
`DEP_ID` unchanged to its deepest point and its centroid. -/
theorem claim_C5_dep_id_invariants (rows : List PolygonRow)
    (out pts : List CharRow) (k : ℤ) (pt : DeepPoint) (p : CharRow)
    (h : characterize_all rows = some out) :
    out.map CharRow.dep_id = idList rows.length 1
    ∧ ((deleteIdentical CharRow.dep_id pts).map CharRow.dep_id).Nodup
    ∧ (deleteIdentical CharRow.dep_id pts).find?
        (fun z => decide (z.dep_id = k))
        = pts.find? (fun z => decide (z.dep_id = k))
    ∧ (spatialJoinPoint pt p).2.dep_id = p.dep_id
    ∧ (featureToPoint p).dep_id = p.dep_id :=
  ⟨characterize_go_dep_ids rows 1 out h,
   deleteIdenticalGo_keys_nodup CharRow.dep_id pts [],
   deleteIdenticalGo_find? CharRow.dep_id k pts [] (List.not_mem_nil k),
   rfl, rfl⟩

/-- The characterised row of the concrete good polygon. -/
noncomputable def goodChar : CharRow :=
  (characterize_row goodRow 1).get goodRow_char_isSome

/-- The one-polygon run over the good row succeeds and outputs its
characterised row. -/
lemma characterize_all_goodRow : characterize_all [goodRow] = some [goodChar] := by
  have h : characterize_row goodRow 1 = some goodChar :=
    (Option.some_get goodRow_char_isSome).symm
  rw [characterize_all, characterize_go, h]
  rw [show characterize_go (1 + 1) [] = some [] from rfl]
  rfl

/-- Witness for claim C5 on the concrete one-polygon run, with a
duplicated deepest point deduplicated by `DEP_ID`. -/
theorem claim_C5_witness :
    [goodChar].map CharRow.dep_id = idList [goodRow].length 1
    ∧ ((deleteIdentical CharRow.dep_id [goodChar, goodChar]).map
        CharRow.dep_id).Nodup
    ∧ (deleteIdentical CharRow.dep_id [goodChar, goodChar]).find?
        (fun z => decide (z.dep_id = 1))
        = [goodChar, goodChar].find? (fun z => decide (z.dep_id = 1))
    ∧ (spatialJoinPoint ⟨9, -10⟩ goodChar).2.dep_id = goodChar.dep_id
    ∧ (featureToPoint goodChar).dep_id = goodChar.dep_id :=
  claim_C5_dep_id_invariants [goodRow] [goodChar] [goodChar, goodChar] 1
    ⟨9, -10⟩ goodChar characterize_all_goodRow

/-- The failure kinds of `IdentifyGeoDepressions.py`: the custom exception
classes `LicenseError`, `NotNegative` and `NoFeatures`. -/
inductive IdentifyError : Type where
  | licenseError : IdentifyError
  | notNegative : IdentifyError
  | noFeatures : IdentifyError
deriving DecidableEq

/-- Embedding of the size filter of `IdentifyGeoDepressions.py`: the
selection `AREA_M >= min_area AND AREA_M <= max_area` with
`min_area = (cell_size * 2) ** 2`, applied to the candidate polygon
areas. -/
noncomputable def size_filter (cell_size max_area : ℝ) (areas : List ℝ) :
    List ℝ :=
  areas.filter fun a => decide ((cell_size * 2) ^ 2 ≤ a ∧ a ≤ max_area)

/-- The value of `arcpy.GetCount_management`: not an integer but a
`Result` object wrapping the count (retrievable only through
`getOutput(0)`, which the script does not call here). -/
structure GetCountResult where
  count : ℕ

/-- Embedding of the Python 2 evaluation of `feature_count < 1`, where
`feature_count` is the `GetCountResult` object itself.  CPython 2 compares
values of unrelated types without error: an instance of a class that
defines no comparison methods is ordered by type, with every number
ordering *before* every non-numeric object.  A `Result` object therefore
compares greater than any int, and `feature_count < 1` evaluates to
`False` regardless of the wrapped count. -/
def resultLtInt (_ : GetCountResult) (_ : ℤ) : Bool := false

/-- Embedding of the filter stage together with the feature-count check as
the source actually performs it: `feature_count` is the `GetCount` result
object, and the guard `feature_count < 1` is the Python 2 cross-type
comparison, so the `NoFeatures` raise on its then-branch is dead code. -/
noncomputable def filter_stage (cell_size max_area : ℝ) (areas : List ℝ) :
    Except IdentifyError (List ℝ) :=
  let remaining := size_filter cell_size max_area areas
  let feature_count : GetCountResult := { count := remaining.length }
  if resultLtInt feature_count 1 then Except.error IdentifyError.noFeatures
  else Except.ok remaining

/-- Claim C6 (code bug): the size filter does retain exactly the polygons
with area in `[(2·cell_size)², max_area]`, but the `NoFeatures` failure
the claim promises is unreachable: the source compares the `GetCount`
result *object* with the int `1`, which is constant-`False` under
Python 2, so the stage returns its (possibly empty) survivor list on
every input; in particular on the failing input `cell_size = 1`
(`min_area = 4`), `max_area = 100`, candidate areas `[1, 2]`, nothing
survives the filter and the stage still emits the empty set instead of
failing with `NoFeatures`. -/
theorem claim_C6_no_features_unreachable (cell_size max_area a : ℝ)
    (areas : List ℝ) :
    (a ∈ size_filter cell_size max_area areas
      ↔ a ∈ areas ∧ (cell_size * 2) ^ 2 ≤ a ∧ a ≤ max_area)
    ∧ filter_stage cell_size max_area areas
        = Except.ok (size_filter cell_size max_area areas)
    ∧ size_filter 1 100 [1, 2] = []
    ∧ filter_stage 1 100 [1, 2] = Except.ok [] := by
  have hempty : size_filter 1 100 [1, 2] = [] := by
    rw [size_filter]
    norm_num [List.filter_cons, List.filter_nil]
  refine ⟨?_, ?_, hempty, ?_⟩
  · rw [size_filter, List.mem_filter]
    simp
  · rw [filter_stage]
    simp [resultLtInt]
  · rw [filter_stage]
    simp [resultLtInt, hempty]

end GeoDepressions
